import Mathlib

/-!
Verification development for the RustKit Objective-C binding generator
(crates `rustkit_bindgen` and `objc_rustime`).

The definitions below are a shallow embedding of `rustkit_bindgen/src/lib.rs`:
each Lean definition mirrors the Rust item of the same (or clearly derived)
name.  Machine integers are modelled as `Nat`/`Int`; Rust `panic!` /
`unreachable!` in pure code is modelled with `Except String`; clang cursors
and types (the read-only AST query interface of `walker.rs`) are modelled as
inductive data carrying exactly the fields the generator consults.
-/

set_option maxRecDepth 4000
set_option maxHeartbeats 1000000

namespace RustKit

/-- `walker::Nullability` (clang nullability on attributed types). -/
inductive Nullability where
  | nonNull
  | nullable
  | unspecified
deriving DecidableEq, Repr

/-- `walker::Availability` as used by the binding generator. -/
inductive Availability where
  | available
  | deprecated (msg : String)
  | notAvailable (msg : String)
  | notAccessible
deriving DecidableEq, Repr

/--
Model of `walker::Ty` — a clang type as seen through the AST query
interface.  Each constructor carries the data the corresponding
`TypeKind` arm of `Type::read` consults: the declaration name for
records/enums, the underlying type of a typedef, the modified type and
nullability of an attributed type, the pointee of pointers, and so on.
-/
inductive WTy where
  | void
  | bool
  | schar | uchar | short | ushort | sint | uint
  | slong | ulong | slonglong | ulonglong
  | float | double
  /-- `TypeKind::Record`; carries `t.decl().name()` and whether the decl is a union. -/
  | record (declName : String) (isUnion : Bool)
  /-- `TypeKind::Enum`; carries `t.decl().name()`. -/
  | enumTy (declName : String)
  /-- `TypeKind::ConstantArray` with `t.element_ty()` and `t.array_size()`. -/
  | constantArray (elem : WTy) (size : Nat)
  /-- `TypeKind::IncompleteArray` with `t.element_ty()`. -/
  | incompleteArray (elem : WTy)
  /-- `TypeKind::Typedef`; carries `t.typedef_name()` and `t.decl().typedef_ty()`. -/
  | typedef (name : String) (underlying : WTy)
  /-- `TypeKind::Attributed`; carries `t.nullability()` and `t.modified_ty()`. -/
  | attributed (n : Nullability) (modified : WTy)
  /-- `TypeKind::Elaborated`; carries `t.named_type()`. -/
  | elaborated (named : WTy)
  /-- `TypeKind::Pointer`; carries `t.pointee()` and `t.is_const()`. -/
  | pointer (pointee : WTy) (isConst : Bool)
  /-- `TypeKind::FunctionProto` with argument types, result type, variadic flag. -/
  | functionProto (args : List WTy) (ret : WTy) (variadic : Bool)
  /-- `TypeKind::ObjCObjectPointer` with `t.pointee()`. -/
  | objcObjectPointer (pointee : WTy)
  | objcSel
  /-- `TypeKind::ObjCInterface`; carries `t.spelling()`. -/
  | objcInterface (spelling : String)
  | objcId
  | objcClass
  /-- `TypeKind::ObjCObject`: base type, type arguments, protocol-ref names.
  The source panics on any base-type kind other than `ObjCId`,
  `ObjCInterface` or `ObjCClass`, so the base is restricted to those
  (for `ObjCClass` the clang spelling of the base is `Class`). -/
  | objcObjectId (typeArgs : List WTy) (protocols : List String)
  | objcObjectIface (baseSpelling : String) (typeArgs : List WTy) (protocols : List String)

/-- The `Type` enum of `rustkit_bindgen` (the semantic type model). -/
inductive Ty where
  | void
  | bool
  /-- `Type::Int(signed, byte_width)` -/
  | int (signed : Bool) (width : Nat)
  /-- `Type::Long(signed)` -/
  | long (signed : Bool)
  /-- `Type::Float(byte_width)` -/
  | float (width : Nat)
  /-- `Type::Pointer(inner, nonnull, is_const)` -/
  | pointer (inner : Ty) (nonnull : Bool) (isConst : Bool)
  /-- `Type::Record(name, is_union)` -/
  | record (name : String) (isUnion : Bool)
  /-- `Type::Enum(name)` -/
  | enumTy (name : String)
  /-- `Type::FunctionProto(args, ret, variadic)` -/
  | functionProto (args : List Ty) (ret : Ty) (variadic : Bool)
  /-- `Type::FixedArray(inner, len)` -/
  | fixedArray (inner : Ty) (len : Nat)
  /-- `Type::Typedef(name)` -/
  | typedef (name : String)
  /-- `Type::InstanceType(nonnull)` -/
  | instanceType (nonnull : Bool)
  /-- `Type::SelectorRef` -/
  | selectorRef
  /-- `Type::Id(optional_protocol)` -/
  | id (proto : Option String)
  /-- `Type::Class(name, type_args, protocols)` -/
  | cls (name : String) (typeArgs : List Ty) (protocols : List String)

namespace Ty

/-- `Type::is_anonymous`. -/
def is_anonymous : Ty → Bool
  | .fixedArray inner _ => inner.is_anonymous
  | .pointer inner _ _ => inner.is_anonymous
  | .enumTy name => name.isEmpty
  | .record name _ => name.isEmpty
  | _ => false

/-- `Type::is_va_list`. -/
def is_va_list : Ty → Bool
  | .fixedArray (.record name false) _ => name == "__va_list_tag"
  | _ => false

/--
`Type::is_nonnull`.  The source hits `unreachable!()` on a non-pointer,
modelled here as `Except.error`.
-/
def is_nonnull : Ty → Except String Bool
  | .pointer _ nonnull _ => .ok nonnull
  | _ => .error "unreachable: is_nonnull on non-pointer"

/-- `Type::is_objc_object`. -/
def is_objc_object : Ty → Bool
  | .pointer inner _ _ =>
    match inner with
    | .id _ | .cls .. | .instanceType _ => true
    | _ => false
  | _ => false

/-- `Type::is_signed`. -/
def is_signed : Ty → Bool
  | .int signed _ => signed
  | .long signed => signed
  | .float _ => true
  | _ => false

/-- `Type::is_copy`. -/
def is_copy : Ty → Bool
  | .int .. | .long _ | .float _ | .enumTy _ | .bool => true
  | _ => false

/--
`Type::msg_send` — selection of the dispatch entry point by return type.
Only `Float(4)`/`Float(8)` select the float-return entry; every other
type (object pointers, records, ...) selects plain `objc_msgSend`.
-/
def msg_send : Ty → String
  | .float 4 | .float 8 => "objc_msgSend_fpret"
  | _ => "objc_msgSend"

end Ty

mutual

/--
`Type::read` — recursive resolution of a clang type into the semantic
type model, carrying the optional name override and the `nonnull` flag
exactly as the source does.
-/
def Ty.read : WTy → Option String → Bool → Ty
  | .void, _, _ => .void
  | .bool, _, _ => .bool
  | .schar, _, _ => .int true 1
  | .uchar, _, _ => .int false 1
  | .short, _, _ => .int true 2
  | .ushort, _, _ => .int false 2
  | .sint, _, _ => .int true 4
  | .uint, _, _ => .int false 4
  | .slong, _, _ => .long true
  | .ulong, _, _ => .long false
  | .slonglong, _, _ => .int true 8
  | .ulonglong, _, _ => .int false 8
  | .float, _, _ => .float 4
  | .double, _, _ => .float 8
  | .record declName isUnion, name, _ => .record (name.getD declName) isUnion
  | .enumTy declName, name, _ => .enumTy (name.getD declName)
  | .constantArray elem size, _, _ => .fixedArray (Ty.read elem none false) size
  | .incompleteArray elem, _, nonnull => .pointer (Ty.read elem none false) nonnull false
  | .typedef name underlying, _, nonnull =>
    if name = "instancetype" then
      .pointer (.instanceType nonnull) nonnull false
    else if name = "BOOL" then
      .bool
    else
      let inner := Ty.read underlying (some name) nonnull
      if inner.is_anonymous then .typedef name else inner
  | .attributed n modified, name, _ =>
    Ty.read modified name (n == Nullability.nonNull)
  | .elaborated named, name, nonnull => Ty.read named name nonnull
  | .pointer pointee isConst, _, nonnull =>
    .pointer (Ty.read pointee none false) nonnull isConst
  | .functionProto args ret variadic, _, _ =>
    .functionProto (Ty.readList args) (Ty.read ret none false) variadic
  | .objcObjectPointer pointee, _, nonnull =>
    .pointer (Ty.read pointee none false) nonnull false
  | .objcSel, _, _ => .selectorRef
  | .objcInterface spelling, _, _ => .cls spelling [] []
  | .objcId, _, nonnull => .pointer (.id none) nonnull false
  | .objcClass, _, nonnull => .pointer (.cls "Class" [] []) nonnull false
  | .objcObjectId _ protocols, _, _ => .id protocols.head?
  | .objcObjectIface spelling typeArgs protocols, _, _ =>
    .cls spelling (Ty.readList typeArgs) protocols

/-- `Type::read` mapped over a type-argument / function-argument list
(`iter().map(|t| Type::read(&t, None, false)).collect()`). -/
def Ty.readList : List WTy → List Ty
  | [] => []
  | t :: ts => Ty.read t none false :: Ty.readList ts

end

/--
Model of the `syn::Type` values the generator constructs with
`parse_quote!`: every shape of Rust type that `raw_ty` / `rust_ty`
can emit.
-/
inductive RustTy where
  | unit
  | bool
  | i8 | i16 | i32 | i64 | u8 | u16 | u32 | u64
  | isize | usize
  | f32 | f64
  | cVoid
  /-- `[T; len]` -/
  | array (elem : RustTy) (len : Nat)
  /-- `*const T` -/
  | constPtr (t : RustTy)
  /-- `*mut T` -/
  | mutPtr (t : RustTy)
  /-- `Option<T>` -/
  | option (t : RustTy)
  /-- `&T` -/
  | ref (t : RustTy)
  /-- `&mut T` -/
  | refMut (t : RustTy)
  /-- `Arc<T>` -/
  | arc (t : RustTy)
  /-- `extern fn(args) -> ret`, optionally variadic -/
  | bareFn (args : List RustTy) (ret : RustTy) (variadic : Bool)
  | selfTy
  | selectorRef
  | object
  /-- a bare path identifier -/
  | path (name : String)

mutual

/--
`Type::raw_ty` — the raw FFI-level Rust type.  The source panics on
unsupported variants and on empty names, modelled as `Except.error`.
-/
def Ty.raw_ty : Ty → Except String RustTy
  | .void => .ok .unit
  | .bool => .ok .bool
  | .int true 1 => .ok .i8
  | .int true 2 => .ok .i16
  | .int true 4 => .ok .i32
  | .int true 8 => .ok .i64
  | .int false 1 => .ok .u8
  | .int false 2 => .ok .u16
  | .int false 4 => .ok .u32
  | .int false 8 => .ok .u64
  | .long true => .ok .isize
  | .long false => .ok .usize
  | .float 4 => .ok .f32
  | .float 8 => .ok .f64
  | .fixedArray inner len => do
    let t ← inner.raw_ty
    .ok (.array t len)
  | .pointer inner nonnull c => do
    let innerTy ← match inner with
      | .void => Except.ok RustTy.cVoid
      | _ => inner.raw_ty
    match inner with
    | .functionProto .. =>
      .ok (if nonnull then innerTy else .option innerTy)
    | _ =>
      .ok (if c then .constPtr innerTy else .mutPtr innerTy)
  | .functionProto args retty var => do
    let ret ← retty.raw_ty
    let as ← rawTyList args
    .ok (.bareFn as ret var)
  | .instanceType _ => .ok .selfTy
  | .selectorRef => .ok .selectorRef
  | .id _ => .ok .object
  | .typedef name
  | .enumTy name
  | .record name _
  | .cls name _ _ =>
    if name.isEmpty then .error "??? unnamed" else .ok (.path name)
  | _ => .error "Unsupported type"

/-- `args.iter().map(|arg| arg.raw_ty()).collect()` under the panic
(`Except`) model. -/
def rawTyList : List Ty → Except String (List RustTy)
  | [] => .ok []
  | t :: ts => do
    let r ← t.raw_ty
    let rs ← rawTyList ts
    .ok (r :: rs)

end

/--
`Type::rust_ty(out)` — the ergonomic Rust-level type: object pointers
become `Arc<T>` (as output) or `&T` (as input), pointer-to-pointer adds
`&mut`, and a nullable pointer is wrapped in `Option`.  Panics of the
source are `Except.error`.
-/
def Ty.rust_ty : Ty → Bool → Except String RustTy
  | .void, _ => .ok .unit
  | .bool, _ => .ok .bool
  | .int true 1, _ => .ok .i8
  | .int true 2, _ => .ok .i16
  | .int true 4, _ => .ok .i32
  | .int true 8, _ => .ok .i64
  | .int false 1, _ => .ok .u8
  | .int false 2, _ => .ok .u16
  | .int false 4, _ => .ok .u32
  | .int false 8, _ => .ok .u64
  | .long true, _ => .ok .isize
  | .long false, _ => .ok .usize
  | .float 4, _ => .ok .f32
  | .float 8, _ => .ok .f64
  | .fixedArray inner len, out => do
    let t ← inner.rust_ty out
    .ok (.array t len)
  | .pointer (.functionProto a r v) nonnull c, _ =>
    (Ty.pointer (.functionProto a r v) nonnull c).raw_ty
  | .pointer .void nonnull _, _ =>
    .ok (if nonnull then .ref .cVoid else .option (.ref .cVoid))
  | .pointer inner nonnull c, out => do
    let innerTy ← inner.rust_ty true
    let innerTy := if (Ty.pointer inner nonnull c).is_objc_object then
        (if out then RustTy.arc innerTy else RustTy.ref innerTy)
      else RustTy.ref innerTy
    let innerTy := match inner with
      | .pointer .. => RustTy.refMut innerTy
      | _ => innerTy
    .ok (if nonnull then innerTy else .option innerTy)
  | .instanceType _, _ => .ok .selfTy
  | .selectorRef, _ => .ok .selectorRef
  | .id _, _ => .ok .object
  | .typedef name, _
  | .enumTy name, _
  | .record name false, _
  | .cls name _ _, _ => .ok (.path name)
  | _, _ => .error "Unsupported type"

mutual

/--
`Type::refs` — transitively referenced record/enum/class/protocol
names; a `va_list` type contributes nothing, a protocol used through
`id<P>` is pushed in its own `Proto` namespace.
-/
def Ty.refs : Ty → List String
  | .fixedArray inner len =>
    if (Ty.fixedArray inner len).is_va_list then [] else inner.refs
  | .pointer inner _ _ => inner.refs
  | .enumTy name => [name]
  | .record name false => [name]
  | .id (some name) => [name ++ "Proto"]
  | .cls name ta _ =>
    (if name ≠ "Class" ∧ name ≠ "Protocol" then [name] else []) ++ Ty.refsList ta
  | .functionProto args ret _ => Ty.refsList args ++ ret.refs
  | _ => []

/-- `refs` over a type list, in order. -/
def Ty.refsList : List Ty → List String
  | [] => []
  | t :: ts => t.refs ++ Ty.refsList ts

end

/-- Rust `str::starts_with(pat)` for string patterns. -/
def rsStartsWith (s pat : String) : Bool := pat.data.isPrefixOf s.data

/-- Rust `str::replace(":", "_")` — the pattern is a single character,
so the replacement is character-wise. -/
def replaceColons (s : String) : String :=
  ⟨s.data.map (fun c => if c = ':' then '_' else c)⟩

/-- Leftmost-match single replacement on character lists
(Rust `str::replacen(pat, rep, 1)`). -/
def replacen1Aux (pat rep : List Char) : List Char → List Char
  | [] => if pat.isEmpty then rep else []
  | c :: cs =>
    if pat.isPrefixOf (c :: cs) then rep ++ (c :: cs).drop pat.length
    else c :: replacen1Aux pat rep cs

/-- Rust `str::replacen(pat, rep, 1)`. -/
def rsReplacen1 (s pat rep : String) : String :=
  ⟨replacen1Aux pat.data rep.data s.data⟩

/-- `is_reserved_keyword` — the fixed list of names the generator
mangles (Rust keywords, plus `create`, that are usable in ObjC). -/
def is_reserved_keyword (s : String) : Bool :=
  match s with
  | "as" | "create" | "false" | "fn" | "impl" | "let" | "loop" | "match"
  | "mod" | "mut" | "pub" | "ref" | "Self" | "self" | "super" | "trait"
  | "true" | "type" | "unsafe" | "use" | "where" | "abstract" | "alignof"
  | "become" | "box" | "final" | "macro" | "override" | "priv" | "proc"
  | "pure" | "virtual" | "yield" => true
  | _ => false

/-- The same reserved-name list as a plain list, in source order
(for stating properties of `is_reserved_keyword`). -/
def reservedKeywordList : List String :=
  ["as", "create", "false", "fn", "impl", "let", "loop", "match",
   "mod", "mut", "pub", "ref", "Self", "self", "super", "trait",
   "true", "type", "unsafe", "use", "where", "abstract", "alignof",
   "become", "box", "final", "macro", "override", "priv", "proc",
   "pure", "virtual", "yield"]

/-- The `if is_reserved_keyword(&name) { name.push('_') }` mangling
applied to method arguments, method names and record fields. -/
def keywordMangle (s : String) : String :=
  if is_reserved_keyword s then s ++ "_" else s

/-- The binding name of a method: the selector with each `:` replaced
by `_`, then keyword-mangled (from `MethodDecl::read`). -/
def methodRustname (selector : String) : String :=
  keywordMangle (replaceColons selector)

/-- The availability data of a cursor: `c.availability()` together with
the presence (and message) of a `swift`-platform `unavailable` entry in
`c.availability_attrs()`. -/
structure CAvail where
  avail : Availability
  swiftUnavailable : Bool
  swiftMessage : String

/-- `bind_availability` — an otherwise-available declaration marked
unavailable for the `swift` platform resolves to `NotAvailable`. -/
def bind_availability (c : CAvail) : Availability :=
  match c.avail with
  | .available =>
    if c.swiftUnavailable then .notAvailable c.swiftMessage else .available
  | a => a

/-- `ReturnOwnership`. -/
inductive ReturnOwnership where
  | retained
  | notRetained
  | autoreleased
deriving DecidableEq, Repr

/-- The attribute children of a method cursor that `MethodDecl::read`
reacts to, in visitation order. -/
inductive MAttr where
  | nsReturnsRetained
  | nsReturnsNotRetained
  | nsReturnsAutoreleased
  | objcReturnsInnerPointer
  | nsConsumesSelf
  | otherAttr
deriving DecidableEq, Repr

/-- A method cursor: the data `MethodDecl::read` consults. -/
structure MethodCursor where
  /-- `c.name()` — the selector text. -/
  name : String
  /-- argument cursors as `(arg.name(), arg.ty())`. -/
  args : List (String × WTy)
  /-- attribute children in visitation order. -/
  attrs : List MAttr
  /-- availability of the cursor. -/
  cavail : CAvail
  /-- `c.result_ty()`. -/
  resultTy : WTy

/-- `Arg`. -/
structure Arg where
  name : String
  ty : Ty

/-- `MethodDecl`. -/
structure MethodDecl where
  rustname : String
  avail : Availability
  args : List Arg
  retty : Ty
  ret_own : ReturnOwnership
  inter_ptr : Bool
  consumes_self : Bool

/-- The child-visitation fold of `MethodDecl::read`: ownership starts as
`Autoreleased` and each attribute seen overwrites it (last one wins);
inner-pointer and consumes-self flags latch to `true`. -/
def readMethodAttrs (attrs : List MAttr) : ReturnOwnership × Bool × Bool :=
  attrs.foldl (fun acc a =>
    match a with
    | .nsReturnsRetained => (.retained, acc.2.1, acc.2.2)
    | .nsReturnsNotRetained => (.notRetained, acc.2.1, acc.2.2)
    | .nsReturnsAutoreleased => (.autoreleased, acc.2.1, acc.2.2)
    | .objcReturnsInnerPointer => (acc.1, true, acc.2.2)
    | .nsConsumesSelf => (acc.1, acc.2.1, true)
    | .otherAttr => acc) (.autoreleased, false, false)

/-- `MethodDecl::read`. -/
def MethodDecl.read (c : MethodCursor) : MethodDecl :=
  let a := readMethodAttrs c.attrs
  { rustname := methodRustname c.name
    avail := bind_availability c.cavail
    args := c.args.map (fun arg => ⟨keywordMangle arg.1, Ty.read arg.2 none false⟩)
    retty := Ty.read c.resultTy none false
    ret_own := a.1
    inter_ptr := a.2.1
    consumes_self := a.2.2 }

/-- `MethodDecl::refs`. -/
def MethodDecl.refs (m : MethodDecl) : List String :=
  m.args.flatMap (fun a => a.ty.refs) ++ m.retty.refs

/--
The result-conversion statements of a generated method body, together
with `objc_retain` (which the `objc_rustime` runtime offers but
`gen_call` never emits).  `Arc::new` / `Arc::new_unchecked` only wrap
the raw pointer — per `objc_rustime`, constructing an `Arc` performs no
retain (cloning retains once, dropping releases once).
-/
inductive Stmt where
  /-- `objc_retainAutoreleasedReturnValue(_ret as *mut _)` — the claim
  step for an autoreleased return value. -/
  | retainAutoreleasedReturnValue
  /-- a plain `objc_retain(_ret)`. -/
  | retain
  /-- `let _ret = Arc::new_unchecked(_ret)` (nonnull object pointer). -/
  | arcNewUnchecked
  /-- `let _ret = Arc::new(_ret)` (nullable object pointer). -/
  | arcNew
  /-- `let _ret = &*_ret` (nonnull inner pointer). -/
  | borrowNonnull
  /-- null-checked borrow (nullable inner pointer). -/
  | borrowNullable
deriving DecidableEq, Repr

/-- Number of autoreleased-value claim steps in a finish sequence. -/
def countClaims (l : List Stmt) : Nat :=
  l.countP (fun s => s == .retainAutoreleasedReturnValue)

/-- Number of plain retains in a finish sequence. -/
def countRetains (l : List Stmt) : Nat :=
  l.countP (fun s => s == .retain)

/--
The `finish` statement list built by `MethodDecl::gen_call`
(lines 674–705 of `rustkit_bindgen/src/lib.rs`): a claim step for an
autoreleased object result, then the `Arc` wrap for object results or
the borrow for inner-pointer results.  `Type::is_nonnull` panicking on
a non-pointer is the `Except.error` case.
-/
def genFinish (ret_own : ReturnOwnership) (retty : Ty) (inter_ptr : Bool) :
    Except String (List Stmt) := do
  let fin : List Stmt :=
    if ret_own == .autoreleased && retty.is_objc_object then
      [.retainAutoreleasedReturnValue]
    else []
  if retty.is_objc_object then
    let nn ← retty.is_nonnull
    .ok (fin ++ [if nn then .arcNewUnchecked else .arcNew])
  else if inter_ptr then
    let nn ← retty.is_nonnull
    .ok (fin ++ [if nn then .borrowNonnull else .borrowNullable])
  else
    .ok fin

/-- The receiver expression `get_obj` of a generated body. -/
inductive Receiver where
  /-- `<Self as ObjCClass>::classref().0 as *const Object as *mut _` -/
  | classref
  /-- `objc_allocWithZone(<Self as ObjCClass>::classref())` — a zeroed
  instance freshly obtained from the class's allocation entry point. -/
  | allocWithZone
  /-- `self as *const Self as *mut Self as *mut _` -/
  | selfPtr
deriving DecidableEq, Repr

/-- The duplicate-parameter renaming scan of `gen_call`: a parameter
whose name already occurred `n` times becomes `name_{n+1}`. -/
def renameParams (args : List Arg) : List String :=
  (args.foldl (fun (acc : List String × List String) a =>
    let n := (acc.1.filter (fun x => x == a.name)).length
    let nm := if n == 0 then a.name else a.name ++ "_" ++ toString (n + 1)
    (acc.1 ++ [a.name], acc.2 ++ [nm])) ([], [])).2

/-- `rust_ty` mapped over a list of types (the parameter-type loop of
`gen_call`) under the panic model. -/
def rustTyList (ts : List Ty) (out : Bool) : Except String (List RustTy) :=
  match ts with
  | [] => .ok []
  | t :: rest => do
    let r ← t.rust_ty out
    let rs ← rustTyList rest out
    .ok (r :: rs)

/-- The callable unit produced by `gen_call`: name, self-parameter
presence, parameters, raw dispatch signature, receiver expression,
dispatch entry point, selector slot and finish sequence. -/
structure EmittedFn where
  name : String
  hasSelfParam : Bool
  params : List (String × RustTy)
  rawArgTys : List RustTy
  rawRetTy : RustTy
  retTy : RustTy
  selname : String
  msgsend : String
  receiver : Receiver
  finish : List Stmt

/--
`MethodDecl::gen_call(decls, s, class)` — `Except.error` models a panic
while generating, `Except.ok none` models `return None` (declaration
skipped), `Except.ok (some f)` an emitted callable.  Only the keys of
the `decls` map are consulted.
-/
def MethodDecl.gen_call (m : MethodDecl) (declKeys : List String) (s : String)
    (cls : Bool) : Except String (Option EmittedFn) :=
  match m.avail with
  | .notAvailable _ => .ok none
  | _ =>
    if m.refs.any (fun r => !(declKeys.contains r) && r != "NSString") then
      .ok none
    else if m.args.any (fun a => a.ty.is_va_list) then
      .ok none
    else
      let initializer := m.consumes_self && rsStartsWith m.rustname "init"
      let mname := if initializer then rsReplacen1 m.rustname "init" "new"
                   else m.rustname
      let selname := "SEL_" ++ replaceColons s
      do
        let paramTys ← rustTyList (m.args.map (fun a => a.ty)) false
        let rawtypes ← rawTyList (m.args.map (fun a => a.ty))
        let rawRet ← m.retty.raw_ty
        let rustRet ← if m.retty.is_objc_object || m.inter_ptr then
            m.retty.rust_ty true
          else m.retty.raw_ty
        let fin ← genFinish m.ret_own m.retty m.inter_ptr
        .ok (some {
          name := mname
          hasSelfParam := !initializer && !cls
          params := (renameParams m.args).zip paramTys
          rawArgTys := rawtypes
          rawRetTy := rawRet
          retTy := rustRet
          selname := selname
          msgsend := m.retty.msg_send
          receiver := if cls then .classref
                      else if initializer then .allocWithZone
                      else .selfPtr
          finish := fin })

/-! ### The declaration catalog (pass 1 of `bind_tu`) -/

/-- Association-list model of `HashMap<String, V>`: `alInsert` replaces
in place and returns the previous value, exactly like
`HashMap::insert`. -/
def alLookup {V : Type} : List (String × V) → String → Option V
  | [], _ => none
  | (k', v) :: rest, k => if k' = k then some v else alLookup rest k

/-- `HashMap::insert`: returns `(old value, updated map)`. -/
def alInsert {V : Type} : List (String × V) → String → V → Option V × List (String × V)
  | [], k, v => (none, [(k, v)])
  | (k', v') :: rest, k, v =>
    if k' = k then (some v', (k, v) :: rest)
    else
      let r := alInsert rest k v
      (r.1, (k', v') :: r.2)

/-- `HashMap::contains_key`. -/
def alContains {V : Type} (l : List (String × V)) (k : String) : Bool :=
  (alLookup l k).isSome

/-- A property cursor: the data `PropertyDecl::read` consults. -/
structure PropertyCursor where
  /-- `c.name()`. -/
  name : String
  /-- `c.property_attributes().readonly()`. -/
  readonly : Bool
  /-- `c.property_attributes().class()`. -/
  classProp : Bool
  /-- `c.getter_name()`. -/
  getterName : String
  /-- `c.setter_name()`. -/
  setterName : String
  /-- `c.ty()`. -/
  ty : WTy
  cavail : CAvail

/-- `PropertyDecl`. -/
structure PropertyDecl where
  ty : Ty
  getter : String
  setter : Option String
  getter_method : Option MethodDecl
  setter_method : Option MethodDecl

/-- `PropertyDecl::read`. -/
def PropertyDecl.read (c : PropertyCursor) : PropertyDecl :=
  { ty := Ty.read c.ty none false
    getter := c.getterName
    setter := if !c.readonly then some c.setterName else none
    getter_method := none
    setter_method := none }

/-- A member child of a class / category / protocol cursor, as
dispatched on by `ClassDecl::read_category`. -/
inductive Member where
  /-- `CursorKind::ObjCClassMethodDecl` -/
  | classMethod (c : MethodCursor)
  /-- `CursorKind::ObjCInstanceMethodDecl` -/
  | instanceMethod (c : MethodCursor)
  /-- `CursorKind::ObjCPropertyDecl` -/
  | property (c : PropertyCursor)
  /-- any other child kind (attributes, class refs, ...), ignored. -/
  | otherMember (cavail : CAvail)

/-- The availability data of a member cursor. -/
def Member.cavail : Member → CAvail
  | .classMethod c => c.cavail
  | .instanceMethod c => c.cavail
  | .property c => c.cavail
  | .otherMember a => a

/-- `ClassDecl`. -/
structure ClassDecl where
  src : List String
  rustname : String
  superclass : String
  size : Nat
  protocols : List String
  cprops : List (String × PropertyDecl)
  iprops : List (String × PropertyDecl)
  cmethods : List (String × MethodDecl)
  imethods : List (String × MethodDecl)

/-- Attach `decl` as resolved getter method of the first property whose
getter selector is `sel` (the `values_mut().find(...)` step). -/
def setGetterMethod : List (String × PropertyDecl) → String → MethodDecl →
    List (String × PropertyDecl)
  | [], _, _ => []
  | (k, p) :: rest, sel, m =>
    if p.getter == sel then (k, { p with getter_method := some m }) :: rest
    else (k, p) :: setGetterMethod rest sel m

/-- Attach `decl` as resolved setter method of the first property whose
setter selector is `sel`. -/
def setSetterMethod : List (String × PropertyDecl) → String → MethodDecl →
    List (String × PropertyDecl)
  | [], _, _ => []
  | (k, p) :: rest, sel, m =>
    if p.setter == some sel then (k, { p with setter_method := some m }) :: rest
    else (k, p) :: setSetterMethod rest sel m

/--
One child step of `ClassDecl::read_category`: members that resolve to
unavailable are skipped; an instance method whose selector matches a
property's getter/setter folds into that property; duplicate method
and class-property insertions panic (`Except.error`); a duplicate
instance property is diagnosed and the later one kept.
-/
def readCategoryStep (d : ClassDecl) (mem : Member) : Except String ClassDecl :=
  match bind_availability mem.cavail with
  | .notAvailable _ => .ok d
  | _ =>
    match mem with
    | .classMethod c =>
      let r := alInsert d.cmethods c.name (MethodDecl.read c)
      if r.1.isSome then .error "????"
      else .ok { d with cmethods := r.2 }
    | .instanceMethod c =>
      let selname := c.name
      let decl := MethodDecl.read c
      if d.iprops.any (fun p => p.2.getter == selname) then
        .ok { d with iprops := setGetterMethod d.iprops selname decl }
      else if d.iprops.any (fun p => p.2.setter == some selname) then
        .ok { d with iprops := setSetterMethod d.iprops selname decl }
      else
        let r := alInsert d.imethods selname decl
        if r.1.isSome then .error "????"
        else .ok { d with imethods := r.2 }
    | .property c =>
      let decl := PropertyDecl.read c
      if c.classProp then
        let r := alInsert d.cprops c.name decl
        if r.1.isSome then .error "Duplicate class property declaration"
        else .ok { d with cprops := r.2 }
      else
        let r := alInsert d.iprops c.name decl
        .ok { d with iprops := r.2 }
    | .otherMember _ => .ok d

/-- `ClassDecl::read_category` — fold the member children into the
declaration. -/
def ClassDecl.read_category (d : ClassDecl) (members : List Member) :
    Except String ClassDecl :=
  members.foldlM readCategoryStep d

/-- A class / category / protocol cursor: the data `ClassDecl::read`
consults.  Superclass and protocol references are children of the
cursor; they are modelled as direct fields. -/
structure ClassCursor where
  /-- `c.name()`. -/
  name : String
  /-- `c.location().filename()`, as path components. -/
  srcPath : List String
  /-- the last `ObjCSuperClassRef` child's name (empty if none). -/
  superclassRef : String
  /-- the `ObjCProtocolRef` children's names. -/
  protocolRefs : List String
  /-- `c.ty().size()`. -/
  sizeOfTy : Nat
  /-- the member children, in visitation order. -/
  members : List Member
  cavail : CAvail

/-- `ClassDecl::read` (`isInterface` = the cursor kind is
`ObjCInterfaceDecl`, which decides whether the instance size is
recorded). -/
def ClassDecl.read (c : ClassCursor) (isInterface : Bool) :
    Except String ClassDecl :=
  ClassDecl.read_category
    { src := c.srcPath
      rustname := c.name
      superclass := c.superclassRef
      size := if isInterface then c.sizeOfTy else 0
      protocols := c.protocolRefs
      cprops := []
      iprops := []
      cmethods := []
      imethods := [] }
    c.members

/-- `i64::checked_abs`: `None` exactly at the signed-minimum 64-bit
value, otherwise the absolute value (no overflow possible elsewhere). -/
def i64_checked_abs (v : Int) : Option Int :=
  if v = -(2 ^ 63) then none else some |v|

/--
The per-constant computation of `EnumDecl::read` for a signed backing
type: `(magnitude as u64, is_negative)`, where the magnitude falls back
to `i64::max_value() as u64 + 1` (that is `2^63`) when `checked_abs`
overflows at the signed minimum.
-/
def readSignedEnumConst (v : Int) : Nat × Bool :=
  let neg := decide (v < 0)
  let mag := (((i64_checked_abs v).map (fun a => a.toNat))).getD (2 ^ 63)
  (mag, neg)

/-- Decoding a stored variant `(magnitude, is_negative)` back into the
signed value it denotes (the emission side writes `-magnitude` for a
negative variant and `magnitude` otherwise). -/
def decodeVariant (mag : Nat) (neg : Bool) : Int :=
  if neg then -(mag : Int) else (mag : Int)

/-- A child of an enum cursor. -/
inductive EnumChild where
  /-- `CursorKind::EnumConstantDecl`, exposing the constant value both
  as signed (`enum_const_value_signed`, an `i64`) and unsigned
  (`enum_const_value_unsigned`, a `u64`). -/
  | constDecl (name : String) (sval : Int) (uval : Nat)
  /-- `CursorKind::FlagEnum` -/
  | flagEnum
  | otherChild
deriving Repr

/-- An enum cursor: the data `EnumDecl::read` consults. -/
structure EnumCursor where
  name : String
  srcPath : List String
  /-- `c.enum_ty()`. -/
  enumTy : WTy
  /-- children in visitation order. -/
  children : List EnumChild
  /-- `c.is_definition()`. -/
  isDefinition : Bool
  cavail : CAvail

/-- `EnumDecl`. -/
structure EnumDecl where
  src : List String
  rustname : String
  ty : Ty
  exhaustive : Bool
  flagenum : Bool
  variants : List (String × Nat × Bool)

/--
`EnumDecl::read`: each constant is stored as
`(name, magnitude, is_negative)`; for a signed backing type the value
comes from the signed accessor through `checked_abs`, for an unsigned
one directly from the unsigned accessor; a constant whose
`(magnitude, sign)` pair was already seen is skipped with a diagnostic.
-/
def EnumDecl.read (c : EnumCursor) : EnumDecl :=
  let ty := Ty.read c.enumTy none false
  let r := c.children.foldl (fun (acc : List (String × Nat × Bool) × Bool) ch =>
    match ch with
    | .constDecl n sval uval =>
      let vn := if ty.is_signed then readSignedEnumConst sval else (uval, false)
      if acc.1.any (fun v => v.2.1 == vn.1 && v.2.2 == vn.2) then acc
      else (acc.1 ++ [(n, vn.1, vn.2)], acc.2)
    | .flagEnum => (acc.1, true)
    | .otherChild => acc) ([], false)
  { src := c.srcPath
    rustname := c.name
    ty := ty
    exhaustive := false
    flagenum := r.2
    variants := r.1 }

mutual

/-- A record (struct/union) cursor with its field and nested-record
children. -/
inductive RecordCursor where
  | mk (name : String) (srcPath : List String) (isUnion : Bool)
      (children : List RecordChild)

/-- A child of a record cursor. -/
inductive RecordChild where
  /-- `CursorKind::FieldDecl` with `c.name()` and `c.ty()`. -/
  | fieldDecl (name : String) (ty : WTy)
  /-- a nested `StructDecl` / `UnionDecl`. -/
  | nested (r : RecordCursor)
  | otherChild

end

/-- `c.name()` of a record cursor. -/
def RecordCursor.name : RecordCursor → String
  | .mk n _ _ _ => n

/-- `RecordDecl`. -/
structure RecordDecl where
  src : List String
  rustname : String
  fields : List (String × Ty)
  union : Bool

/-- `RecordDecl::is_empty`. -/
def RecordDecl.is_empty (r : RecordDecl) : Bool := r.fields.isEmpty

mutual

/--
`RecordDecl::read`: unnameable (empty-named) fields and fields of
anonymous record type are dropped with a diagnostic; named nested
records are read recursively and collected in visitation order; the
enclosing record comes last.
-/
def RecordDecl.read : RecordCursor → List RecordDecl
  | .mk structName srcPath isUnion children =>
    let r := readRecordChildren children
    r.2 ++ [{ src := srcPath, rustname := structName, fields := r.1, union := isUnion }]

/-- The child-visitation of `RecordDecl::read`, returning the kept
fields and the nested named records, each in visitation order. -/
def readRecordChildren : List RecordChild → (List (String × Ty) × List RecordDecl)
  | [] => ([], [])
  | ch :: rest =>
    let tail := readRecordChildren rest
    match ch with
    | .fieldDecl name wty =>
      if name.isEmpty then tail
      else
        let ty := Ty.read wty none false
        match ty with
        | .record rn _ =>
          if rn.isEmpty then tail else ((name, ty) :: tail.1, tail.2)
        | .fixedArray (.record rn _) _ =>
          if rn.isEmpty then tail else ((name, ty) :: tail.1, tail.2)
        | _ => ((name, ty) :: tail.1, tail.2)
    | .nested r =>
      if r.name.isEmpty then tail
      else (tail.1, RecordDecl.read r ++ tail.2)
    | .otherChild => tail

end

/-- `RecordDecl::refs`. -/
def RecordDecl.refs (r : RecordDecl) : List String :=
  r.fields.flatMap (fun f => f.2.refs)

/-- A typedef cursor.  Only typedefs whose underlying type is itself of
`TypeKind::Typedef` (the `standard_typedef` path of `bind_tu`) are
modelled; the anonymous-record/enum naming machinery of the
`Elaborated` and `Pointer` arms is outside this embedding. -/
structure TypedefCursor where
  name : String
  srcPath : List String
  /-- `c.typedef_ty()`. -/
  underlying : WTy
  cavail : CAvail

/-- `TypedefDecl`. -/
structure TypedefDecl where
  src : List String
  rustname : String
  ty : Ty

/-- `TypedefDecl::read`. -/
def TypedefDecl.read (c : TypedefCursor) : TypedefDecl :=
  { src := c.srcPath, rustname := c.name, ty := Ty.read c.underlying none false }

/-- `TypedefDecl::refs`. -/
def TypedefDecl.refs (t : TypedefDecl) : List String := t.ty.refs

/-- A C function cursor. -/
structure FuncCursor where
  /-- `c.spelling()`. -/
  name : String
  srcPath : List String
  args : List (String × WTy)
  resultTy : WTy
  variadic : Bool
  cavail : CAvail

/-- `FunctionDecl`. -/
structure FunctionDecl where
  src : List String
  rustname : String
  avail : Availability
  args : List (String × Ty)
  retty : Ty
  variadic : Bool

/-- `FunctionDecl::read`. -/
def FunctionDecl.read (c : FuncCursor) : FunctionDecl :=
  { src := c.srcPath
    rustname := c.name
    avail := bind_availability c.cavail
    args := c.args.map (fun a => (a.1, Ty.read a.2 none false))
    retty := Ty.read c.resultTy none false
    variadic := c.variadic }

/-- `FunctionDecl::refs`. -/
def FunctionDecl.refs (f : FunctionDecl) : List String :=
  f.args.flatMap (fun a => a.2.refs) ++ f.retty.refs

/-- `ItemDecl`. -/
inductive ItemDecl where
  | enumDecl (e : EnumDecl)
  | recordDecl (r : RecordDecl)
  | classDecl (c : ClassDecl)
  | protoDecl (p : ClassDecl)
  | typedefDecl (t : TypedefDecl)
  | funcDecl (f : FunctionDecl)

/-- `ItemDecl::src`. -/
def ItemDecl.src : ItemDecl → List String
  | .enumDecl e => e.src
  | .recordDecl r => r.src
  | .classDecl c => c.src
  | .protoDecl p => p.src
  | .typedefDecl t => t.src
  | .funcDecl f => f.src

/-- The accumulated state of the `bind_tu` traversal: the name-keyed
declaration map and the first-seen name order `declnames`. -/
structure Catalog where
  decls : List (String × ItemDecl)
  declnames : List String

/-- A top-level cursor of the translation unit, restricted to the kinds
`bind_tu` dispatches on. -/
inductive Cursor where
  /-- `ObjCCategoryDecl`; `targetClass` is the name of the
  `ObjCClassRef` child naming the extended class. -/
  | categoryDecl (targetClass : String) (c : ClassCursor)
  /-- `ObjCInterfaceDecl` -/
  | interfaceDecl (c : ClassCursor)
  /-- `ObjCProtocolDecl` -/
  | protocolDecl (c : ClassCursor)
  /-- `EnumDecl` -/
  | enumCursor (c : EnumCursor)
  /-- `StructDecl` / `UnionDecl` with `c.is_definition()`. -/
  | structDecl (r : RecordCursor) (isDefinition : Bool) (cavail : CAvail)
  /-- `TypedefDecl` (standard-typedef shape only, see `TypedefCursor`). -/
  | typedefCursor (c : TypedefCursor)
  /-- `FunctionDecl` -/
  | funcCursor (c : FuncCursor)

/-- `c.availability()` of a top-level cursor (the raw availability, as
used by the gate at the top of the `bind_tu` visitation). -/
def Cursor.rawAvail : Cursor → Availability
  | .categoryDecl _ c => c.cavail.avail
  | .interfaceDecl c => c.cavail.avail
  | .protocolDecl c => c.cavail.avail
  | .enumCursor c => c.cavail.avail
  | .structDecl _ _ a => a.avail
  | .typedefCursor c => c.cavail.avail
  | .funcCursor c => c.cavail.avail

/-- The record-insertion loop of the `StructDecl` arm of `bind_tu`
(`for d in decl { ... }`): the insertion replaces any previous entry;
a previous non-empty record is diagnosed (kept replaced), a previous
non-record panics. -/
def insertRecords (cat : Catalog) : List RecordDecl → Except String Catalog
  | [] => .ok cat
  | d :: rest => do
    let r := alInsert cat.decls d.rustname (.recordDecl d)
    match r.1 with
    | some (.recordDecl _) =>
      insertRecords { cat with decls := r.2 } rest
    | some _ => .error "Old definition not a record???"
    | none =>
      insertRecords { decls := r.2, declnames := cat.declnames ++ [d.rustname] } rest

/--
One top-level step of the `bind_tu` visitation.  `Except.error` models
a panic.  Notable behaviours mirrored from the source:
* a category is applied through `decls.entry(classname).and_modify(..)`
  — if the target class is not yet (or never) in the map, the category
  contents are silently lost;
* a duplicate class / protocol / enum name panics;
* a duplicate record definition is skipped (first kept);
* a duplicate typedef or function name is diagnosed and the later
  declaration replaces the earlier one.
-/
def bindStep (cat : Catalog) (cur : Cursor) : Except String Catalog :=
  match cur.rawAvail with
  | .notAvailable _ => .ok cat
  | _ =>
    match cur with
    | .categoryDecl targetClass c => do
      let _ ← ClassDecl.read c false
      match alLookup cat.decls targetClass with
      | some (.classDecl cd) => do
        let cd' ← cd.read_category c.members
        let r := alInsert cat.decls targetClass (.classDecl cd')
        .ok { cat with decls := r.2 }
      | _ => .ok cat
    | .interfaceDecl c => do
      let cd ← ClassDecl.read c true
      let r := alInsert cat.decls c.name (.classDecl cd)
      if r.1.isSome then .error "??? class already defined"
      else .ok { decls := r.2, declnames := cat.declnames ++ [c.name] }
    | .protocolDecl c => do
      let cd ← ClassDecl.read c false
      let name := c.name ++ "Proto"
      let r := alInsert cat.decls name (.protoDecl cd)
      if r.1.isSome then .error "??? proto already defined"
      else .ok { decls := r.2, declnames := cat.declnames ++ [name] }
    | .enumCursor c =>
      if c.name.isEmpty then .ok cat
      else if !c.isDefinition then .ok cat
      else
        let d := EnumDecl.read c
        let r := alInsert cat.decls c.name (.enumDecl d)
        if r.1.isSome then .error "??? enum already defined"
        else .ok { decls := r.2, declnames := cat.declnames ++ [c.name] }
    | .structDecl rc isDefinition _ =>
      if rc.name.isEmpty then .ok cat
      else if isDefinition && alContains cat.decls rc.name then .ok cat
      else insertRecords cat (RecordDecl.read rc)
    | .typedefCursor c =>
      match c.underlying with
      | .typedef _ _ =>
        let d := TypedefDecl.read c
        let r := alInsert cat.decls c.name (.typedefDecl d)
        if r.1.isSome then .ok { cat with decls := r.2 }
        else .ok { decls := r.2, declnames := cat.declnames ++ [c.name] }
      | _ => .ok cat
    | .funcCursor c =>
      let d := FunctionDecl.read c
      let r := alInsert cat.decls c.name (.funcDecl d)
      if r.1.isSome then .ok { cat with decls := r.2 }
      else .ok { decls := r.2, declnames := cat.declnames ++ [c.name] }

/-- The catalog-building traversal of `bind_tu` over the top-level
cursors of a translation unit. -/
def bind_tu (cursors : List Cursor) : Except String Catalog :=
  cursors.foldlM bindStep ⟨[], []⟩

/-! ### Emission (`gen_file`) -/

/-- `ClassDecl::collect_selectors` — insert the instance-property
getter/setter selectors and the class/instance method selectors into
the unit-scoped set. -/
def ClassDecl.collect_selectors (c : ClassDecl) (h : Finset String) :
    Finset String :=
  let h := c.iprops.foldl (fun h p =>
    let h := insert p.2.getter h
    match p.2.setter with
    | some s => insert s h
    | none => h) h
  let h := c.cmethods.foldl (fun h m => insert m.1 h) h
  c.imethods.foldl (fun h m => insert m.1 h) h

/-- The selector `HashSet` of `gen_file`: selectors collected from every
class and protocol of the catalog. -/
def collectSelectors (decls : List (String × ItemDecl)) : Finset String :=
  decls.foldl (fun h d =>
    match d.2 with
    | .classDecl c => c.collect_selectors h
    | .protoDecl c => c.collect_selectors h
    | _ => h) ∅

/-- A `static mut SEL_name: SelectorRef` slot emitted by `gen_file`:
the mangled slot identifier and the selector text it refers to. -/
structure SelSlot where
  selname : String
  sel : String
deriving DecidableEq, Repr

/-- The slot emitted for one selector: `SEL_` followed by the selector
with `:` replaced by `_`. -/
def selSlot (s : String) : SelSlot := ⟨"SEL_" ++ replaceColons s, s⟩

/-- The `for s in selectors` emission loop of `gen_file`, applied to the
enumeration order the hash set happens to produce. -/
def selSlots (order : List String) : List SelSlot := order.map selSlot

/-- `order` is a possible iteration order of the `HashSet` `s`: each
element exactly once.  Which of these orders a run observes is
unspecified (`RandomState` is seeded per process). -/
def IterationOrder (s : Finset String) (order : List String) : Prop :=
  order.Nodup ∧ order.toFinset = s

/-- A foreign-function declaration emitted into the `extern` block of
`gen_file`. -/
structure ForeignFn where
  name : String
  argNames : List String
  argTys : List RustTy
  retTy : RustTy
  /-- whether the declaration carries a trailing `...`. -/
  variadic : Bool

/--
The per-function emission pipeline of `gen_file` (its two `filter_map`
stages over `ItemDecl::Func` values): drop unavailable functions,
functions outside the unit's base path and functions with a `va_list`
argument; otherwise emit a foreign declaration — marked variadic when
the source function is variadic.  Argument names that are reserved
keywords or empty get `_` appended.
-/
def genForeignFn (basePath : List String) (f : FunctionDecl) :
    Except String (Option ForeignFn) :=
  match f.avail with
  | .notAvailable _ => .ok none
  | _ =>
    if !(basePath.isPrefixOf f.src) then .ok none
    else if f.args.any (fun a => a.2.is_va_list) then .ok none
    else do
      let argTys ← rawTyList (f.args.map (fun a => a.2))
      let retTy ← f.retty.raw_ty
      .ok (some
        { name := f.rustname
          argNames := f.args.map (fun a =>
            if is_reserved_keyword a.1 || a.1.isEmpty then a.1 ++ "_" else a.1)
          argTys := argTys
          retTy := retTy
          variadic := f.variadic })

/-! ### Concrete instances used by witnesses and counterexamples -/

/-- An unconditionally available cursor. -/
def availOk : CAvail := ⟨.available, false, ""⟩

/-- A designated-initializer method as produced by `MethodDecl::read`
for `-(instancetype _Nonnull)initWithName:` with `NS_CONSUMES_SELF` and
`NS_RETURNS_RETAINED`. -/
def initExampleMethod : MethodDecl :=
  { rustname := "initWithName_"
    avail := .available
    args := []
    retty := .pointer (.instanceType true) true false
    ret_own := .retained
    inter_ptr := false
    consumes_self := true }

/-- A method cursor for a niladic `void` instance method `m1`. -/
def c3m1 : MethodCursor := ⟨"m1", [], [], availOk, .void⟩

/-- A method cursor for a niladic `void` instance method `m2`. -/
def c3m2 : MethodCursor := ⟨"m2", [], [], availOk, .void⟩

/-- An interface cursor for class `A` declaring `m1`. -/
def c3Iface : ClassCursor :=
  ⟨"A", ["F.framework", "Headers", "A.h"], "NSObject", [], 8,
   [.instanceMethod c3m1], availOk⟩

/-- A category cursor on `A` declaring `m2`. -/
def c3Cat : ClassCursor :=
  ⟨"ACat", ["F.framework", "Headers", "ACat.h"], "", [], 0,
   [.instanceMethod c3m2], availOk⟩

/-- An enum cursor `E` with one constant. -/
def c5Enum : EnumCursor :=
  ⟨"E", ["F.framework", "Headers", "E.h"], .sint, [.constDecl "EA" 0 0],
   true, availOk⟩

/-- A record cursor `R` with one `int` field `x`. -/
def c5Rec1 : RecordCursor :=
  .mk "R" ["F.framework", "Headers", "R.h"] false [.fieldDecl "x" .sint]

/-- A second, structurally different record definition also named `R`. -/
def c5Rec2 : RecordCursor :=
  .mk "R" ["F.framework", "Headers", "R2.h"] false [.fieldDecl "y" .double]

/-- A typedef cursor `T` aliasing the typedef `U`. -/
def c5Td1 : TypedefCursor :=
  ⟨"T", ["F.framework", "Headers", "T.h"], .typedef ("U") .sint, availOk⟩

/-- A second typedef also named `T`, aliasing the typedef `V`. -/
def c5Td2 : TypedefCursor :=
  ⟨"T", ["F.framework", "Headers", "T2.h"], .typedef ("V") .double, availOk⟩

/-- A function cursor `f` returning `int`. -/
def c5Fn1 : FuncCursor :=
  ⟨"f", ["F.framework", "Headers", "Fn.h"], [], .sint, false, availOk⟩

/-- A second function cursor also named `f`, returning `double`. -/
def c5Fn2 : FuncCursor :=
  ⟨"f", ["F.framework", "Headers", "Fn2.h"], [], .double, false, availOk⟩

/-- A variadic C function with no `va_list` argument
(`int fmtfn(const char *fmt, ...)`). -/
def c4VariadicFn : FunctionDecl :=
  { src := ["F.framework", "Headers", "F.h"]
    rustname := "fmtfn"
    avail := .available
    args := [("fmt", .pointer (.int true 1) false true)]
    retty := .int true 4
    variadic := true }

/-- The base path of the example unit. -/
def exampleBasePath : List String := ["F.framework", "Headers"]

/-- A method with a `va_list`-typed argument. -/
def c4VaMethod : MethodDecl :=
  { rustname := "logv_"
    avail := .available
    args := [⟨"args", .fixedArray (.record "__va_list_tag" false) 1⟩]
    retty := .void
    ret_own := .autoreleased
    inter_ptr := false
    consumes_self := false }

/-- A C function with a `va_list`-typed argument. -/
def c4VaFn : FunctionDecl :=
  { src := ["F.framework", "Headers", "F.h"]
    rustname := "logv"
    avail := .available
    args := [("args", .fixedArray (.record "__va_list_tag" false) 1)]
    retty := .void
    variadic := false }

/-- The foreign declaration `gen_file` emits for `c4VariadicFn` —
carrying the trailing `...`. -/
def c4VariadicForeign : ForeignFn :=
  { name := "fmtfn"
    argNames := ["fmt"]
    argTys := [.constPtr .i8]
    retTy := .i32
    variadic := true }

/-- The callable `gen_call` emits for `initExampleMethod`: a
constructor named `newWithName_` with no self parameter, dispatching
against a freshly allocated zeroed instance. -/
def initExampleEmitted : EmittedFn :=
  { name := "newWithName_"
    hasSelfParam := false
    params := []
    rawArgTys := []
    rawRetTy := .mutPtr .selfTy
    retTy := .arc .selfTy
    selname := "SEL_initWithName_"
    msgsend := "objc_msgSend"
    receiver := .allocWithZone
    finish := [.arcNewUnchecked] }

/-! ## Claim theorems -/

/--
C1 — evaluation of the emitted ownership operations at the failing
input: for an instance method returning a (nullable) object pointer
with `returnOwnership = NotRetained`, the generated finish sequence is
just the `Arc` wrap, containing zero retains — although the claim (and
the ARC contract) requires exactly one retain before the wrap, since
`Arc`'s destructor performs a release.  The autoreleased case gets its
single claim step and the retained case is wrapped directly, as
claimed.
-/
theorem C1_notRetained_retain_missing :
    genFinish .notRetained (.pointer (.id none) false false) false = .ok [.arcNew] ∧
    countRetains [.arcNew] = 0 ∧
    countClaims [.arcNew] = 0 ∧
    genFinish .autoreleased (.pointer (.id none) false false) false =
      .ok [.retainAutoreleasedReturnValue, .arcNew] ∧
    countRetains [.retainAutoreleasedReturnValue, .arcNew] = 0 ∧
    countClaims [.retainAutoreleasedReturnValue, .arcNew] = 1 ∧
    genFinish .retained (.pointer (.id none) false false) false = .ok [.arcNew] :=
  ⟨rfl, rfl, rfl, rfl, rfl, rfl, rfl⟩

/--
C2 counterexample — a struct (aggregate) return selects the plain
`objc_msgSend` entry point, not the struct-return entry
`objc_msgSend_stret` the claim requires.
-/
theorem C2_counterexample :
    Ty.msg_send (.record "NSRange" false) = "objc_msgSend" ∧
    "objc_msgSend" ≠ "objc_msgSend_stret" :=
  ⟨rfl, by decide⟩

/--
C2 (amended) — the dispatch entry point is selected by return type as
follows: `Float(4)`/`Float(8)` use the float-return entry
`objc_msgSend_fpret`; every other return type — including aggregates
(records) and all object pointers — uses the default `objc_msgSend`;
no struct-return entry is ever selected.
-/
theorem C2_dispatch_entry_selection :
    Ty.msg_send (.float 4) = "objc_msgSend_fpret" ∧
    Ty.msg_send (.float 8) = "objc_msgSend_fpret" ∧
    (∀ w, w ≠ 4 → w ≠ 8 → Ty.msg_send (.float w) = "objc_msgSend") ∧
    (∀ t : Ty, (∀ w, t ≠ .float w) → t.msg_send = "objc_msgSend") ∧
    (∀ t : Ty, t.msg_send = "objc_msgSend_fpret" ∨ t.msg_send = "objc_msgSend") := by
  refine ⟨rfl, rfl, ?_, ?_, ?_⟩
  · intro w h4 h8
    rcases w with _|_|_|_|_|_|_|_|_|n
    · rfl
    · rfl
    · rfl
    · rfl
    · exact absurd rfl h4
    · rfl
    · rfl
    · rfl
    · exact absurd rfl h8
    · rfl
  · intro t h
    cases t with
    | float w => exact absurd rfl (h w)
    | _ => rfl
  · intro t
    cases t with
    | float w =>
      rcases w with _|_|_|_|_|_|_|_|_|n
      · exact Or.inr rfl
      · exact Or.inr rfl
      · exact Or.inr rfl
      · exact Or.inr rfl
      · exact Or.inl rfl
      · exact Or.inr rfl
      · exact Or.inr rfl
      · exact Or.inr rfl
      · exact Or.inl rfl
      · exact Or.inr rfl
    | _ => exact Or.inr rfl

/-- C2 witness — the amended theorem applied at concrete inputs: a
13-wide float and a record return both dispatch through the default
entry. -/
theorem C2_witness :
    Ty.msg_send (.float 13) = "objc_msgSend" ∧
    Ty.msg_send (.record "NSRect" false) = "objc_msgSend" :=
  ⟨C2_dispatch_entry_selection.2.2.1 13 (by decide) (by decide),
   C2_dispatch_entry_selection.2.2.2.1 (.record "NSRect" false)
     (fun w h => by cases h)⟩

/--
C8 — `EnumDecl::read` stores signed constants without lossy
conversion: for any in-range signed 64-bit value `v` the stored pair is
`(|v|, v < 0)` with the magnitude computed as a full natural number
(no overflow), the signed-minimum value yields magnitude `2^63` with
the negative flag set, and decoding a stored variant reproduces the
original value.
-/
theorem C8_signed_enum_roundtrip (v : Int)
    (h1 : -(2 ^ 63) ≤ v) (h2 : v < 2 ^ 63) :
    readSignedEnumConst v = (v.natAbs, decide (v < 0)) ∧
    decodeVariant (readSignedEnumConst v).1 (readSignedEnumConst v).2 = v ∧
    readSignedEnumConst (-(2 ^ 63)) = (2 ^ 63, true) := by
  have habs : |v| = (v.natAbs : Int) := Int.abs_eq_natAbs v
  have hr : readSignedEnumConst v = (v.natAbs, decide (v < 0)) := by
    by_cases hv : v = -(2 ^ 63)
    · show ((((i64_checked_abs v).map (fun a => a.toNat))).getD (2 ^ 63),
        decide (v < 0)) = _
      rw [i64_checked_abs, if_pos hv]
      simp only [Option.map_none', Option.getD_none, Prod.mk.injEq]
      exact ⟨by omega, trivial⟩
    · show ((((i64_checked_abs v).map (fun a => a.toNat))).getD (2 ^ 63),
        decide (v < 0)) = _
      rw [i64_checked_abs, if_neg hv, habs]
      simp only [Option.map_some', Option.getD_some, Int.toNat_natCast,
        Prod.mk.injEq]
  have hmin : readSignedEnumConst (-(2 ^ 63)) = (2 ^ 63, true) := by
    show ((((i64_checked_abs (-(2 ^ 63))).map (fun a => a.toNat))).getD (2 ^ 63),
      decide ((-(2 ^ 63) : Int) < 0)) = _
    rw [i64_checked_abs, if_pos rfl]
    simp only [Option.map_none', Option.getD_none, Prod.mk.injEq]
    refine ⟨trivial, ?_⟩
    rw [decide_eq_true_iff]
    norm_num
  refine ⟨hr, ?_, hmin⟩
  rw [hr, decodeVariant]
  by_cases hneg : v < 0
  · rw [if_pos (decide_eq_true hneg)]
    omega
  · rw [if_neg (by simp [hneg])]
    omega

/-- C8 witness — the round-trip theorem applied at the signed-minimum
64-bit value. -/
theorem C8_witness :
    readSignedEnumConst (-(2 ^ 63)) = (2 ^ 63, true) ∧
    decodeVariant (readSignedEnumConst (-(2 ^ 63))).1
      (readSignedEnumConst (-(2 ^ 63))).2 = -(2 ^ 63) :=
  ⟨(C8_signed_enum_roundtrip (-(2 ^ 63)) (by norm_num) (by norm_num)).2.2,
   (C8_signed_enum_roundtrip (-(2 ^ 63)) (by norm_num) (by norm_num)).2.1⟩

/-- `is_reserved_keyword` decides exactly membership in the fixed
reserved-name list. -/
lemma is_reserved_keyword_eq_contains (s : String) :
    is_reserved_keyword s = reservedKeywordList.contains s := by
  unfold is_reserved_keyword
  split <;> simp_all [reservedKeywordList]

/--
C10 — a name equal to one of the fixed reserved list gets exactly one
underscore appended; every other name passes through unchanged; a
method's binding name is its selector with `:` replaced by `_` and then
the same mangling; `MethodDecl::read` applies the mangling to the
selector and to every argument name.
-/
theorem C10_reserved_keyword_mangling :
    (∀ s : String, s ∈ reservedKeywordList → keywordMangle s = s ++ "_") ∧
    (∀ s : String, s ∉ reservedKeywordList → keywordMangle s = s) ∧
    (∀ sel : String, methodRustname sel =
      (if replaceColons sel ∈ reservedKeywordList then replaceColons sel ++ "_"
       else replaceColons sel)) ∧
    (∀ c : MethodCursor, (MethodDecl.read c).rustname = methodRustname c.name ∧
      (MethodDecl.read c).args.map (fun a => a.name) =
        c.args.map (fun a => keywordMangle a.1)) := by
  have hmem : ∀ s : String, keywordMangle s =
      if s ∈ reservedKeywordList then s ++ "_" else s := by
    intro s
    rw [keywordMangle, is_reserved_keyword_eq_contains]
    by_cases h : s ∈ reservedKeywordList
    · simp [h]
    · simp [h]
  refine ⟨?_, ?_, ?_, ?_⟩
  · intro s h
    rw [hmem, if_pos h]
  · intro s h
    rw [hmem, if_neg h]
  · intro sel
    rw [methodRustname, hmem]
  · intro c
    constructor
    · rfl
    · simp [MethodDecl.read]

/-- C10 witness — the mangling theorem applied at concrete names: the
reserved name `match` (and the selector `match`) gain one underscore,
an unreserved name passes through, and `:` becomes `_`. -/
theorem C10_witness :
    keywordMangle "match" = "match" ++ "_" ∧
    keywordMangle "length" = "length" ∧
    methodRustname "initWithName:" =
      (if replaceColons "initWithName:" ∈ reservedKeywordList then
        replaceColons "initWithName:" ++ "_"
       else replaceColons "initWithName:") :=
  ⟨C10_reserved_keyword_mangling.1 "match" (by decide),
   C10_reserved_keyword_mangling.2.1 "length" (by decide),
   C10_reserved_keyword_mangling.2.2.1 "initWithName:"⟩

/-- Inverting a successful `Except` bind. -/
lemma except_bind_ok {α β : Type} {x : Except String α}
    {f : α → Except String β} {r : β}
    (h : (x >>= f) = .ok r) : ∃ t, x = .ok t ∧ f t = .ok r := by
  cases x with
  | error e => simp [Bind.bind, Except.bind] at h
  | ok t => exact ⟨t, rfl, by simpa [Bind.bind, Except.bind] using h⟩

/-- When the pattern is a prefix, `replacen(pat, rep, 1)` replaces
exactly that leading occurrence. -/
lemma replacen1Aux_leading_match (pat rep l : List Char)
    (h : pat.isPrefixOf l = true) :
    replacen1Aux pat rep l = rep ++ l.drop pat.length := by
  cases l with
  | nil =>
    cases pat with
    | nil => simp [replacen1Aux]
    | cons c cs => simp [List.isPrefixOf] at h
  | cons c cs =>
    simp [replacen1Aux, h]

/-- A successful `raw_ty` of a bare function type is a bare-fn type
preserving variadic-ness. -/
lemma raw_ty_functionProto (a : List Ty) (rt : Ty) (v : Bool) (t : RustTy)
    (h : (Ty.functionProto a rt v).raw_ty = .ok t) :
    ∃ bs r0, t = .bareFn bs r0 v := by
  simp only [Ty.raw_ty] at h
  obtain ⟨x, hx, h2⟩ := except_bind_ok h
  obtain ⟨y, hy, h3⟩ := except_bind_ok h2
  injection h3 with h'
  exact ⟨y, x, h'.symm⟩

/-- A nullable pointer's bound-language (`rust_ty`) type is always
`Option`-wrapped. -/
lemma rust_ty_nullable_option (inner : Ty) (c out : Bool) (r : RustTy)
    (h : (Ty.pointer inner false c).rust_ty out = .ok r) :
    ∃ r', r = .option r' := by
  cases inner with
  | void =>
    simp only [Ty.rust_ty] at h
    injection h with h'
    exact ⟨_, h'.symm⟩
  | functionProto a rt v =>
    simp only [Ty.rust_ty, Ty.raw_ty] at h
    obtain ⟨t, hx, hf⟩ := except_bind_ok h
    injection hf with h'
    exact ⟨_, h'.symm⟩
  | _ =>
    simp only [Ty.rust_ty] at h
    obtain ⟨t, hx, hf⟩ := except_bind_ok h
    injection hf with h'
    exact ⟨_, h'.symm⟩

/-- A nonnull pointer's bound-language (`rust_ty`) type is never
`Option`-wrapped. -/
lemma rust_ty_nonnull_not_option (inner : Ty) (c out : Bool) (r : RustTy)
    (h : (Ty.pointer inner true c).rust_ty out = .ok r) :
    ∀ r', r ≠ .option r' := by
  cases inner with
  | void =>
    simp only [Ty.rust_ty] at h
    injection h with h'
    intro r' hcon
    rw [← h'] at hcon
    exact RustTy.noConfusion hcon
  | functionProto a rt v =>
    simp only [Ty.rust_ty, Ty.raw_ty] at h
    obtain ⟨t, hx, hf⟩ := except_bind_ok h
    obtain ⟨bs, r0, hbs⟩ := raw_ty_functionProto a rt v t hx
    injection hf with h'
    intro r' hcon
    rw [← h', hbs] at hcon
    exact RustTy.noConfusion hcon
  | pointer i nn ic =>
    simp only [Ty.rust_ty] at h
    obtain ⟨t, hx, hf⟩ := except_bind_ok h
    injection hf with h'
    intro r' hcon
    rw [← h'] at hcon
    exact RustTy.noConfusion hcon
  | id p =>
    simp only [Ty.rust_ty] at h
    obtain ⟨t, hx, hf⟩ := except_bind_ok h
    injection hf with h'
    intro r' hcon
    rw [← h'] at hcon
    cases out <;> exact RustTy.noConfusion hcon
  | instanceType nn =>
    simp only [Ty.rust_ty] at h
    obtain ⟨t, hx, hf⟩ := except_bind_ok h
    injection hf with h'
    intro r' hcon
    rw [← h'] at hcon
    cases out <;> exact RustTy.noConfusion hcon
  | cls n ta ps =>
    simp only [Ty.rust_ty] at h
    obtain ⟨t, hx, hf⟩ := except_bind_ok h
    injection hf with h'
    intro r' hcon
    rw [← h'] at hcon
    cases out <;> exact RustTy.noConfusion hcon
  | _ =>
    simp only [Ty.rust_ty] at h
    obtain ⟨t, hx, hf⟩ := except_bind_ok h
    injection hf with h'
    intro r' hcon
    rw [← h'] at hcon
    exact RustTy.noConfusion hcon

/--
C9 — nullability handling of pointer reads: a `nonnull` attribute on an
attributed wrapper propagates into the immediately produced `Pointer`
(both for plain pointers and Objective-C object pointers); absent
nullability (the `nonnull = false` default every root call passes)
yields a nullable `Pointer`; and the bound-language type of a pointer
is `Option`-wrapped exactly when the pointer is nullable.
-/
theorem C9_nullability_propagation (w : WTy) (nm : Option String) (b : Bool)
    (k : Bool) (inner : Ty) (c out : Bool) :
    (Ty.read (.attributed .nonNull (.pointer w k)) nm b =
      .pointer (Ty.read w none false) true k) ∧
    (Ty.read (.attributed .nonNull (.objcObjectPointer w)) nm b =
      .pointer (Ty.read w none false) true false) ∧
    (Ty.read (.pointer w k) nm false =
      .pointer (Ty.read w none false) false k) ∧
    (Ty.read (.objcObjectPointer w) nm false =
      .pointer (Ty.read w none false) false false) ∧
    (∀ r, (Ty.pointer inner false c).rust_ty out = .ok r →
      ∃ r', r = .option r') ∧
    (∀ r, (Ty.pointer inner true c).rust_ty out = .ok r →
      ∀ r', r ≠ .option r') :=
  ⟨rfl, rfl, rfl, rfl,
   fun r h => rust_ty_nullable_option inner c out r h,
   fun r h => rust_ty_nonnull_not_option inner c out r h⟩

/-- C9 witness — the nullability theorem applied at `id`: an
unattributed object pointer reads as nullable and its bound type is
`Option<Arc<Object>>`; a `nonnull`-attributed one reads as nonnull and
its bound type is a bare `Arc<Object>`. -/
theorem C9_witness :
    Ty.read (.objcObjectPointer .objcId) none false =
      .pointer (.pointer (.id none) false false) false false ∧
    (∃ r', RustTy.option (.arc .object) = RustTy.option r') ∧
    (∀ r', RustTy.arc RustTy.object ≠ RustTy.option r') := by
  have h := C9_nullability_propagation .objcId none false false (.id none) false true
  exact ⟨h.2.2.2.1,
    h.2.2.2.2.1 (RustTy.option (.arc .object)) rfl,
    h.2.2.2.2.2 (RustTy.arc .object) rfl⟩

/--
C7 — a consumed-self method whose binding name begins with `init`
(dispatched as an instance method, `class = false`) is emitted as a
constructor: its name is the binding name with the leading `init`
replaced by `new`, it takes no receiver (`&self`) parameter, and its
receiver expression allocates a zeroed instance via
`objc_allocWithZone(<Self as ObjCClass>::classref())` before
dispatching the initializer selector against it.
-/
theorem C7_initializer_constructor (m : MethodDecl) (declKeys : List String)
    (s : String) (f : EmittedFn)
    (h1 : m.consumes_self = true)
    (h2 : rsStartsWith m.rustname "init" = true)
    (hf : m.gen_call declKeys s false = .ok (some f)) :
    f.name = rsReplacen1 m.rustname "init" "new" ∧
    f.name.data = "new".data ++ m.rustname.data.drop 4 ∧
    f.hasSelfParam = false ∧
    f.receiver = .allocWithZone := by
  have hname : ∀ g : EmittedFn, g.name = rsReplacen1 m.rustname "init" "new" →
      g.name.data = "new".data ++ m.rustname.data.drop 4 := by
    intro g hgoal
    rw [hgoal, rsReplacen1]
    show replacen1Aux "init".data "new".data m.rustname.data = _
    rw [replacen1Aux_leading_match _ _ _ h2]
    rfl
  rcases havail : m.avail with _ | msg | msg | _ <;>
    rw [MethodDecl.gen_call, havail] at hf
  case notAvailable => exact absurd hf (by simp)
  all_goals rw [h1, h2] at hf
  all_goals repeat'
    first
      | (injection hf with hf'; injection hf' with hf''; subst hf'';
         exact ⟨rfl, hname _ rfl, rfl, rfl⟩)
      | (obtain ⟨_, _, hf⟩ := except_bind_ok hf)
      | (dsimp only [] at hf)
      | (split at hf)
      | (exact absurd hf (by simp))

/-- C7 witness — `gen_call` evaluated on the concrete designated
initializer `initWithName:`: the emitted callable is
`initExampleEmitted`, and the constructor shape follows from the
theorem. -/
theorem C7_witness :
    initExampleMethod.gen_call [] "initWithName:" false =
      .ok (some initExampleEmitted) ∧
    initExampleEmitted.name = rsReplacen1 initExampleMethod.rustname "init" "new" ∧
    initExampleEmitted.hasSelfParam = false ∧
    initExampleEmitted.receiver = .allocWithZone := by
  have hf : initExampleMethod.gen_call [] "initWithName:" false =
      .ok (some initExampleEmitted) := rfl
  have h := C7_initializer_constructor initExampleMethod [] "initWithName:"
    initExampleEmitted rfl rfl hf
  exact ⟨hf, h.1, h.2.2.1, h.2.2.2⟩

/--
C3 counterexample — discovery order matters: when the category on `A`
(adding `m2`) is visited before the interface of `A` (declaring `m1`),
the category is applied through `entry(..).and_modify(..)` on a map
that does not yet contain `A`, so its content is silently dropped; the
final catalog entry for `A` contains only `m1`.
-/
theorem C3_counterexample :
    (bind_tu [.categoryDecl "A" c3Cat, .interfaceDecl c3Iface]).map
      (fun cat => cat.decls.map (fun d => (d.1,
        match d.2 with
        | .classDecl c => c.imethods.map (fun m => m.1)
        | _ => []))) = .ok [("A", ["m1"])] := rfl

/--
C3 (amended) — category merge is order-dependent: when the interface of
`A` (with available instance method `m1`) is visited before a category
on `A` (with available instance method `m2`, a distinct selector), the
catalog ends with exactly one entry for `A` whose instance-method map
contains `m1` and `m2` exactly once; a category visited before its
interface is silently dropped (see the counterexample) — category
content is not buffered.
-/
theorem C3_interface_first_merge (A sup catName : String)
    (src1 src2 : List String) (sz : Nat) (mc1 mc2 : MethodCursor)
    (h1a : mc1.cavail.avail = .available)
    (h1s : mc1.cavail.swiftUnavailable = false)
    (h2a : mc2.cavail.avail = .available)
    (h2s : mc2.cavail.swiftUnavailable = false)
    (hne : mc1.name ≠ mc2.name) :
    bind_tu [.interfaceDecl ⟨A, src1, sup, [], sz, [.instanceMethod mc1], availOk⟩,
             .categoryDecl A ⟨catName, src2, "", [], 0, [.instanceMethod mc2], availOk⟩] =
      .ok ⟨[(A, .classDecl
        { src := src1, rustname := A, superclass := sup, size := sz, protocols := [],
          cprops := [], iprops := [], cmethods := [],
          imethods := [(mc1.name, MethodDecl.read mc1),
                       (mc2.name, MethodDecl.read mc2)] })],
        [A]⟩ := by
  simp [bind_tu, List.foldlM, bindStep, Cursor.rawAvail, availOk, ClassDecl.read,
    ClassDecl.read_category, readCategoryStep, Member.cavail, bind_availability,
    h1a, h1s, h2a, h2s, alInsert, alLookup, hne, Bind.bind, Except.bind,
    Pure.pure, Except.pure, List.any_nil, Option.isSome]

/-- C3 witness — the merge theorem applied to the concrete interface
`A { m1 }` and category `A (Cat) { m2 }` in interface-first order. -/
theorem C3_witness :
    bind_tu [.interfaceDecl c3Iface, .categoryDecl "A" c3Cat] =
      .ok ⟨[("A", .classDecl
        { src := ["F.framework", "Headers", "A.h"], rustname := "A",
          superclass := "NSObject", size := 8, protocols := [],
          cprops := [], iprops := [], cmethods := [],
          imethods := [("m1", MethodDecl.read c3m1),
                       ("m2", MethodDecl.read c3m2)] })],
        ["A"]⟩ :=
  C3_interface_first_merge "A" "NSObject" "ACat"
    ["F.framework", "Headers", "A.h"] ["F.framework", "Headers", "ACat.h"]
    8 c3m1 c3m2 rfl rfl rfl rfl (by decide)

/--
C4 counterexample — a variadic C function with no `va_list` argument is
NOT excluded: `gen_file` emits a foreign declaration for it, marked
with a trailing `...`.
-/
theorem C4_counterexample :
    c4VariadicFn.variadic = true ∧
    genForeignFn exampleBasePath c4VariadicFn = .ok (some c4VariadicForeign) ∧
    c4VariadicForeign.variadic = true :=
  ⟨rfl, rfl, rfl⟩

/--
C4 (amended) — what is actually excluded is any declaration with a
`va_list`-typed argument: such methods and functions are skipped
(`None`); a variadic function without a `va_list` argument is emitted,
as a variadic (`...`) foreign declaration, and every emitted foreign
declaration is free of `va_list` arguments and preserves the source's
variadic flag.
-/
theorem C4_va_list_exclusion :
    (∀ (m : MethodDecl) (declKeys : List String) (s : String) (cls : Bool),
      m.args.any (fun a => a.ty.is_va_list) = true →
      m.gen_call declKeys s cls = .ok none) ∧
    (∀ (bp : List String) (f : FunctionDecl),
      f.args.any (fun a => a.2.is_va_list) = true →
      genForeignFn bp f = .ok none) ∧
    (∀ (bp : List String) (f : FunctionDecl) (fn : ForeignFn),
      genForeignFn bp f = .ok (some fn) →
      fn.variadic = f.variadic ∧
      f.args.any (fun a => a.2.is_va_list) = false) := by
  refine ⟨?_, ?_, ?_⟩
  · intro m declKeys s cls hva
    cases havail : m.avail <;>
      rcases hrefs : (m.refs.any fun r => !declKeys.contains r && r != "NSString") with _ | _ <;>
        rw [MethodDecl.gen_call, havail, hrefs, hva] <;> try rfl
  · intro bp f hva
    cases havail : f.avail <;>
      rcases hpath : (!(bp.isPrefixOf f.src)) with _ | _ <;>
        rw [genForeignFn, havail, hpath, hva] <;> try rfl
  · intro bp f fn h
    cases havail : f.avail <;> rw [genForeignFn, havail] at h
    case notAvailable msg => exact absurd h (by simp)
    all_goals
      rcases hpath : (!(bp.isPrefixOf f.src)) with _ | _ <;> rw [hpath] at h
    all_goals try (rw [if_pos rfl] at h; exact absurd h (by simp))
    all_goals rw [if_neg (by simp)] at h
    all_goals
      rcases hva : (f.args.any fun a => a.2.is_va_list) with _ | _ <;> rw [hva] at h
    all_goals try (rw [if_pos rfl] at h; exact absurd h (by simp))
    all_goals rw [if_neg (by simp)] at h
    all_goals obtain ⟨t1, _, h⟩ := except_bind_ok h
    all_goals obtain ⟨t2, _, h⟩ := except_bind_ok h
    all_goals (injection h with h1; injection h1 with h2; subst h2; exact ⟨rfl, rfl⟩)

/-- C4 witness — the exclusion theorem at concrete inputs: a method and
a function with `va_list` arguments are skipped, while the variadic
`fmtfn` is emitted with its variadic flag preserved and no `va_list`
argument. -/
theorem C4_witness :
    c4VaMethod.gen_call [] "logv:" false = .ok none ∧
    genForeignFn exampleBasePath c4VaFn = .ok none ∧
    c4VariadicForeign.variadic = c4VariadicFn.variadic ∧
    (c4VariadicFn.args.any fun a => a.2.is_va_list) = false :=
  ⟨C4_va_list_exclusion.1 c4VaMethod [] "logv:" false rfl,
   C4_va_list_exclusion.2.1 exampleBasePath c4VaFn rfl,
   (C4_va_list_exclusion.2.2 exampleBasePath c4VariadicFn c4VariadicForeign rfl).1,
   (C4_va_list_exclusion.2.2 exampleBasePath c4VariadicFn c4VariadicForeign rfl).2⟩

/--
C5 counterexample — a structural conflict can be fatal: a second
interface with an already-catalogued name makes the traversal panic
(`Except.error`) instead of keeping the first definition and
continuing.
-/
theorem C5_counterexample :
    bind_tu [.interfaceDecl c3Iface, .interfaceDecl c3Iface] =
      .error "??? class already defined" := rfl

/--
C5 (amended) — duplicate handling is kind-specific, and only records
keep the first definition: a duplicate class, protocol or enum name is
fatal (panic); a second record definition whose name is already
catalogued is skipped, keeping the first, and the run continues; a
second typedef (of standard typedef-chain shape) or function with a
catalogued name is diagnosed and the later declaration replaces the
earlier one (last wins), with the run continuing.
-/
theorem C5_duplicate_handling :
    (∀ (c1 c2 : ClassCursor) (d1 : ClassDecl),
      c1.cavail.avail = .available → c2.cavail.avail = .available →
      ClassDecl.read c1 true = .ok d1 → c2.name = c1.name →
      ∃ e, bind_tu [.interfaceDecl c1, .interfaceDecl c2] = .error e) ∧
    (∀ (c1 c2 : ClassCursor) (d1 : ClassDecl),
      c1.cavail.avail = .available → c2.cavail.avail = .available →
      ClassDecl.read c1 false = .ok d1 → c2.name = c1.name →
      ∃ e, bind_tu [.protocolDecl c1, .protocolDecl c2] = .error e) ∧
    (∀ (e1 e2 : EnumCursor),
      e1.cavail.avail = .available → e2.cavail.avail = .available →
      e1.name.isEmpty = false → e1.isDefinition = true → e2.isDefinition = true →
      e2.name = e1.name →
      ∃ e, bind_tu [.enumCursor e1, .enumCursor e2] = .error e) ∧
    (∀ (rc1 rc2 : RecordCursor) (a1 a2 : CAvail) (cat1 : Catalog),
      a1.avail = .available → a2.avail = .available →
      bind_tu [.structDecl rc1 true a1] = .ok cat1 →
      alContains cat1.decls rc2.name = true →
      bind_tu [.structDecl rc1 true a1, .structDecl rc2 true a2] = .ok cat1) ∧
    (∀ (t1 t2 : TypedefCursor) (u1 u2 : String) (w1 w2 : WTy),
      t1.cavail.avail = .available → t2.cavail.avail = .available →
      t1.underlying = .typedef u1 w1 → t2.underlying = .typedef u2 w2 →
      t2.name = t1.name →
      bind_tu [.typedefCursor t1, .typedefCursor t2] =
        .ok ⟨[(t2.name, .typedefDecl (TypedefDecl.read t2))], [t1.name]⟩) ∧
    (∀ (f1 f2 : FuncCursor),
      f1.cavail.avail = .available → f2.cavail.avail = .available →
      f2.name = f1.name →
      bind_tu [.funcCursor f1, .funcCursor f2] =
        .ok ⟨[(f2.name, .funcDecl (FunctionDecl.read f2))], [f1.name]⟩) := by
  refine ⟨?_, ?_, ?_, ?_, ?_, ?_⟩
  · intro c1 c2 d1 h1 h2 hr1 hn
    rcases hr2 : ClassDecl.read c2 true with e2 | d2 <;>
      simp [bind_tu, List.foldlM, bindStep, Cursor.rawAvail, h1, h2, hr1, hr2, hn,
        alInsert, Bind.bind, Except.bind, Pure.pure, Except.pure]
  · intro c1 c2 d1 h1 h2 hr1 hn
    rcases hr2 : ClassDecl.read c2 false with e2 | d2 <;>
      simp [bind_tu, List.foldlM, bindStep, Cursor.rawAvail, h1, h2, hr1, hr2, hn,
        alInsert, Bind.bind, Except.bind, Pure.pure, Except.pure]
  · intro e1 e2 h1 h2 hne hd1 hd2 hn
    simp [bind_tu, List.foldlM, bindStep, Cursor.rawAvail, h1, h2, hne, hd1, hd2, hn,
      alInsert, Bind.bind, Except.bind, Pure.pure, Except.pure]
  · intro rc1 rc2 a1 a2 cat1 h1 h2 hb1 hcont
    have hs1 : bindStep ⟨[], []⟩ (.structDecl rc1 true a1) = .ok cat1 := by
      have h' := hb1
      simp only [bind_tu, List.foldlM] at h'
      obtain ⟨t, ht, hp⟩ := except_bind_ok h'
      simp only [Pure.pure, Except.pure] at hp
      injection hp with hp'
      rw [ht, hp']
    simp only [bind_tu, List.foldlM]
    rw [hs1]
    by_cases hemp : rc2.name.isEmpty = true <;>
      simp [Bind.bind, Except.bind, bindStep, Cursor.rawAvail, h2, hemp, hcont,
        Pure.pure, Except.pure]
  · intro t1 t2 u1 u2 w1 w2 h1 h2 hu1 hu2 hn
    simp [bind_tu, List.foldlM, bindStep, Cursor.rawAvail, h1, h2, hu1, hu2, hn,
      alInsert, Bind.bind, Except.bind, Pure.pure, Except.pure]
  · intro f1 f2 h1 h2 hn
    simp [bind_tu, List.foldlM, bindStep, Cursor.rawAvail, h1, h2, hn,
      alInsert, Bind.bind, Except.bind, Pure.pure, Except.pure]

/-- C5 witness — the duplicate-handling theorem at concrete cursors:
duplicate class / protocol / enum names abort; a duplicate record
definition keeps the first; duplicate typedefs and functions keep the
later declaration. -/
theorem C5_witness :
    (∃ e, bind_tu [.interfaceDecl c3Iface, .interfaceDecl c3Iface] = .error e) ∧
    (∃ e, bind_tu [.protocolDecl c3Iface, .protocolDecl c3Iface] = .error e) ∧
    (∃ e, bind_tu [.enumCursor c5Enum, .enumCursor c5Enum] = .error e) ∧
    bind_tu [.structDecl c5Rec1 true availOk, .structDecl c5Rec2 true availOk] =
      .ok ⟨[("R", .recordDecl
        { src := ["F.framework", "Headers", "R.h"], rustname := "R",
          fields := [("x", .int true 4)], union := false })], ["R"]⟩ ∧
    bind_tu [.typedefCursor c5Td1, .typedefCursor c5Td2] =
      .ok ⟨[("T", .typedefDecl (TypedefDecl.read c5Td2))], ["T"]⟩ ∧
    bind_tu [.funcCursor c5Fn1, .funcCursor c5Fn2] =
      .ok ⟨[("f", .funcDecl (FunctionDecl.read c5Fn2))], ["f"]⟩ :=
  ⟨C5_duplicate_handling.1 c3Iface c3Iface _ rfl rfl rfl rfl,
   C5_duplicate_handling.2.1 c3Iface c3Iface _ rfl rfl rfl rfl,
   C5_duplicate_handling.2.2.1 c5Enum c5Enum rfl rfl rfl rfl rfl rfl,
   C5_duplicate_handling.2.2.2.1 c5Rec1 c5Rec2 availOk availOk
     ⟨[("R", .recordDecl
       { src := ["F.framework", "Headers", "R.h"], rustname := "R",
         fields := [("x", .int true 4)], union := false })], ["R"]⟩
     rfl rfl rfl rfl,
   C5_duplicate_handling.2.2.2.2.1 c5Td1 c5Td2 "U" "V" .sint .double
     rfl rfl rfl rfl rfl,
   C5_duplicate_handling.2.2.2.2.2 c5Fn1 c5Fn2 rfl rfl rfl⟩

/--
C6 counterexample — the selector-slot emission loop of `gen_file`
iterates a `HashSet`, whose iteration order is unspecified and varies
between processes: two valid iteration orders of the same selector set
produce different emitted slot sequences, so two runs are not
guaranteed to produce identical output, and the difference is not the
deterministic first-seen order.
-/
theorem C6_counterexample :
    IterationOrder {"a", "b"} ["a", "b"] ∧
    IterationOrder {"a", "b"} ["b", "a"] ∧
    selSlots ["a", "b"] ≠ selSlots ["b", "a"] := by
  refine ⟨⟨?_, ?_⟩, ⟨?_, ?_⟩, ?_⟩ <;> decide

/--
C6 (amended) — re-running over the same catalog yields the same
selector set, and any two iteration orders of that set yield emitted
slot sequences that are permutations of each other: the emitted
declarations agree as a set, but their order follows the hash-set
iteration order of the run, not a deterministic first-seen order.
-/
theorem C6_selector_slots_permutation (s : Finset String) (o1 o2 : List String)
    (h1 : IterationOrder s o1) (h2 : IterationOrder s o2) :
    List.Perm (selSlots o1) (selSlots o2) :=
  (List.perm_of_nodup_nodup_toFinset_eq h1.1 h2.1 (h1.2.trans h2.2.symm)).map selSlot

/-- C6 witness — the permutation theorem at the two concrete iteration
orders of the two-selector set. -/
theorem C6_witness : List.Perm (selSlots ["a", "b"]) (selSlots ["b", "a"]) :=
  C6_selector_slots_permutation {"a", "b"} ["a", "b"] ["b", "a"]
    ⟨by decide, by decide⟩ ⟨by decide, by decide⟩

end RustKit
